import Mathlib

/-!
Shallow embedding of the streaming-gateway core of the `crypto_coin`
repository (package `ccctrl`), together with proofs about the properties
its specification states.

The embedded units are:
* `sockets/rate_limiter.py` — `GatewayRatelimiter` (token bucket);
* `sockets/base_gateway.py` — close-code classification, the event-waiter
  registry (`wait_for` / `_remove_dispatched_listeners`), `send`, and the
  `poll_event` receive step;
* `sockets/keep_alive.py` — one tick of the `KeepAliveHandler.run` loop;
* `sockets/binance/gateway.py` and `sockets/bitmex/gateway.py` — the
  exchange-specific `received_message` routers and the subscribe paths.

Machine floats (`time.time()` / `time.perf_counter()` values) are modelled
as rationals; Python integers as `Int`; fallible Python code as `Except`.
-/

namespace Ccctrl

/-! ## Rate limiter (`sockets/rate_limiter.py`) -/

/-- State of `GatewayRatelimiter`: `max`/`remaining` are the Python ints
`self.max`/`self.remaining`, `window` is `self.window`, `per` is `self.per`.
The asyncio `Lock` serialises callers and carries no further state. -/
structure GatewayRatelimiter where
  max : Int
  remaining : Int
  window : ℚ
  per : ℚ
deriving Repr

namespace GatewayRatelimiter

/-- Constructor `GatewayRatelimiter.__init__(count, per)`:
`max = remaining = count`, `window = 0.0`. -/
def init (count : Int) (per : ℚ) : GatewayRatelimiter :=
  { max := count, remaining := count, window := 0, per := per }

/-- Method `is_ratelimited` at clock value `current`; reads but never
mutates the state. -/
def is_ratelimited (s : GatewayRatelimiter) (current : ℚ) : Bool :=
  if s.window + s.per < current then false else s.remaining = 0

/-- First statement of `get_delay`:
`if current > self.window + self.per: self.remaining = self.max`. -/
def resetIfElapsed (s : GatewayRatelimiter) (current : ℚ) : GatewayRatelimiter :=
  if s.window + s.per < current then { s with remaining := s.max } else s

/-- First two statements of `get_delay`: the reset above followed by
`if self.remaining == self.max: self.window = current`. -/
def refill (s : GatewayRatelimiter) (current : ℚ) : GatewayRatelimiter :=
  if (s.resetIfElapsed current).remaining = (s.resetIfElapsed current).max then
    { s.resetIfElapsed current with window := current }
  else s.resetIfElapsed current

/-- Method `get_delay` at clock value `current`: returns the delay the
caller must wait together with the state after the call. After the refill
steps, an empty bucket returns the time to the window reset without
touching the state; otherwise `remaining` is decremented (and, when it hits
zero, `window` is set to `current`) and the delay is zero. -/
def get_delay (s : GatewayRatelimiter) (current : ℚ) : ℚ × GatewayRatelimiter :=
  if (s.refill current).remaining = 0 then
    ((s.refill current).per - (current - (s.refill current).window), s.refill current)
  else if (s.refill current).remaining - 1 = 0 then
    (0,
      { s.refill current with
          remaining := (s.refill current).remaining - 1
          window := current })
  else
    (0, { s.refill current with remaining := (s.refill current).remaining - 1 })

/-- Method `block`: under the lock it calls `get_delay` and sleeps for the
returned delay; the sleep does not touch the limiter state, so the state
effect coincides with `get_delay`. -/
def block (s : GatewayRatelimiter) (current : ℚ) : ℚ × GatewayRatelimiter :=
  get_delay s current

/-- Run a sequence of `get_delay` calls at the given clock values,
collecting the returned delays. -/
def runCalls (s : GatewayRatelimiter) : List ℚ → List ℚ × GatewayRatelimiter
  | [] => ([], s)
  | t :: ts =>
    let r := get_delay s t
    let rest := runCalls r.2 ts
    (r.1 :: rest.1, rest.2)

/-- Intermediate states reached after each call of a `get_delay` sequence. -/
def runStates (s : GatewayRatelimiter) : List ℚ → List GatewayRatelimiter
  | [] => []
  | t :: ts =>
    let s1 := (get_delay s t).2
    s1 :: runStates s1 ts

end GatewayRatelimiter

/-- Number of zero-delay (immediately admitted) acquisitions in a list of
returned delays. -/
def countZeros (ds : List ℚ) : Nat :=
  ds.countP (fun d => d = 0)

/-! ## Close-code classification (`sockets/base_gateway.py`) -/

namespace BaseWebSocket

/-- Tuple of terminal close codes from `_BaseWebSocket._can_handle_close`. -/
def terminalCloseCodes : List Int :=
  [1000, 4004, 4010, 4011, 4012, 4013, 4014]

/-- Predicate `code not in (1000, 4004, 4010, 4011, 4012, 4013, 4014)` on the
effective close code; a `None` code is not in the tuple, hence reconnectable. -/
def can_handle_close : Option Int → Bool
  | none => true
  | some c => decide (c ∉ terminalCloseCodes)

/-- Python expression `self._close_code or self.socket.close_code`:
`or` falls through on a falsy (`None` or `0`) left operand. -/
def effectiveCloseCode (close_code socket_close_code : Option Int) : Option Int :=
  match close_code with
  | none => socket_close_code
  | some c => if c = 0 then socket_close_code else some c

end BaseWebSocket

/-! ## Keep-alive monitor (`sockets/keep_alive.py`) -/

/-- Part of `_BaseWebSocket` state touched by `close`: the stored close code
and whether a keep-alive handler is still attached. -/
structure SessionState where
  close_code : Option Int
  keep_alive_running : Bool
deriving Repr, DecidableEq

/-- Method `_BaseWebSocket.close(code)` (default `code=4000`): stops the
keep-alive handler, records `_close_code = code` and closes the socket. -/
def wsCloseSession (_s : SessionState) (code : Int) : SessionState :=
  { close_code := some code, keep_alive_running := false }

/-- Result of one iteration of the `KeepAliveHandler.run` loop: either the
staleness branch fired (session closed with the given code, monitor stopped
via the `finally: self.stop(); return`), or a heartbeat send was attempted. -/
inductive TickOutcome where
  | closedAndStopped (code : Int)
  | heartbeatAttempted
deriving Repr, DecidableEq

/-- One tick of `KeepAliveHandler.run`: the guard
`self._last_recv + self.heartbeat_timeout < time.perf_counter()` decides
between force-closing with code 4000 and sending a heartbeat. -/
def keep_alive_tick (last_recv heartbeat_timeout now : ℚ) : TickOutcome :=
  if last_recv + heartbeat_timeout < now then .closedAndStopped 4000
  else .heartbeatAttempted

/-! ## Event-waiter registry (`sockets/base_gateway.py`) -/

/-- Completion delivered to a waiter's future: `future.set_result` or
`future.set_exception` in `_remove_dispatched_listeners`. -/
inductive Outcome (α ε : Type) where
  | done (r : α)
  | failed (e : ε)
deriving Repr, DecidableEq

/-- One `EventListener` registry entry, as appended by `wait_for`. The
`fid` field stands for the identity of the waiter's future object; the
`cancelled` flag is what `future.cancelled()` reports. A completed (done or
failed) future never sits in the registry: completion always removes the
entry in the same dispatch pass. -/
structure EventListener (α ε : Type) where
  event : String
  predicate : α → Except ε Bool
  result : Option (α → α)
  cancelled : Bool
  fid : Nat

/-- Payload handed to `future.set_result`: `entry.result(data)`, or the raw
`data` when `entry.result is None`. -/
def applyResult (result : Option (α → α)) (data : α) : α :=
  match result with
  | none => data
  | some f => f data

/-- Method `_BaseWebSocket._remove_dispatched_listeners(event, data)`.
Returns the registry after the single-pass reverse-index deletion, together
with the future completions performed during the pass, in iteration order.
Entries for other events and entries whose predicate returns `False` are
kept; cancelled entries are pruned without completion; a predicate exception
completes the future with that error; a `True` predicate completes it with
the transformed payload. -/
def remove_dispatched_listeners (event : String) (data : α) :
    List (EventListener α ε) → List (EventListener α ε) × List (Nat × Outcome α ε)
  | [] => ([], [])
  | e :: rest =>
    let r := remove_dispatched_listeners event data rest
    if e.event ≠ event then (e :: r.1, r.2)
    else if e.cancelled then r
    else
      match e.predicate data with
      | .error exc => (r.1, (e.fid, .failed exc) :: r.2)
      | .ok true => (r.1, (e.fid, .done (applyResult e.result data)) :: r.2)
      | .ok false => (e :: r.1, r.2)

/-- Method `_BaseWebSocket.wait_for(event, predicate, result)`: creates a
fresh future (identity `fid`) and appends the entry to the registry. -/
def wait_for (l : List (EventListener α ε)) (event : String)
    (predicate : α → Except ε Bool) (result : Option (α → α)) (fid : Nat) :
    List (EventListener α ε) :=
  l ++ [{ event := event, predicate := predicate, result := result,
          cancelled := false, fid := fid }]

/-! ## JSON values, decode errors, and raw frames -/

/-- Decoded JSON value, the result of a successful `orjson.loads`. -/
inductive JValue where
  | null
  | bool (b : Bool)
  | num (n : Int)
  | str (s : String)
  | arr (elems : List JValue)
  | obj (fields : List (String × JValue))

/-- Python truthiness of a JSON value (`if msg['results']:` style tests). -/
def jTruthy : JValue → Bool
  | .null => false
  | .bool b => b
  | .num n => decide (n ≠ 0)
  | .str s => decide (s ≠ "")
  | .arr xs => !xs.isEmpty
  | .obj fs => !fs.isEmpty

/-- Dictionary field lookup (first binding wins, as in a Python dict built
from distinct keys). -/
def lookupField (fields : List (String × JValue)) (key : String) : Option JValue :=
  match fields with
  | [] => none
  | f :: rest => if f.1 = key then some f.2 else lookupField rest key

/-- Exceptions arising in the gateway receive path. `decodeError` is
`orjson.JSONDecodeError`; `keyError`/`indexError`/`typeError`/`valueError`
are the corresponding Python exceptions raised while unpacking the envelope;
`websocketClosure` and `timeoutErr` are the two exception classes the
`try` in `poll_event` catches. -/
inductive GatewayError where
  | decodeError
  | keyError (k : String)
  | indexError
  | typeError
  | valueError
  | websocketClosure
  | timeoutErr
deriving Repr, DecidableEq

/-- An inbound frame body as handed to `received_message`: either something
`orjson.loads` rejects, or a well-formed JSON document. -/
inductive RawMsg where
  | malformed
  | wellFormed (v : JValue)

/-- Call `orjson.loads` on a frame body. -/
def loads : RawMsg → Except GatewayError JValue
  | .malformed => .error .decodeError
  | .wellFormed v => .ok v

/-! ## String helpers used by the routers -/

/-- Check whether the first list is an initial segment of the second. -/
def listStartsWith : List Char → List Char → Bool
  | [], _ => true
  | _ :: _, [] => false
  | n :: ns, h :: hs => n = h && listStartsWith ns hs

/-- Check whether `needle` occurs contiguously in the haystack; Python's
`needle in haystack` on strings. -/
def containsSub (needle : List Char) : List Char → Bool
  | [] => needle.isEmpty
  | h :: hs => listStartsWith needle (h :: hs) || containsSub needle hs

/-- Python `needle in hay` for strings. -/
def strContains (hay needle : String) : Bool :=
  containsSub needle.toList hay.toList

/-- Python `str.split(sep)` for a single-character separator, on the
character list. -/
def pySplitChars (sep : Char) : List Char → List (List Char)
  | [] => [[]]
  | c :: cs =>
    match pySplitChars sep cs with
    | [] => [[]]
    | p :: ps => if c = sep then [] :: p :: ps else (c :: p) :: ps

/-- Python `s.split(sep)` for a single-character separator. -/
def pySplit (sep : Char) (s : String) : List String :=
  (pySplitChars sep s.toList).map String.mk

/-- Python `str.upper()` (over the ASCII range used by the event names). -/
def pyUpper (s : String) : String :=
  String.mk (s.toList.map Char.toUpper)

/-! ## Binance router (`sockets/binance/gateway.py`) -/

namespace Binance

/-- Enum lookup `EventType(topic).name`; an unknown topic value raises
`ValueError`, which nothing in `received_message` catches. -/
def eventTypeName (topic : String) : Except GatewayError String :=
  if topic = "depth" then .ok "DEPTH_UPDATE"
  else if topic = "kline" then .ok "KLINE_UPDATE"
  else if topic = "ticker" then .ok "TICKER_UPDATE"
  else if topic = "trade" then .ok "TRADE_UPDATE"
  else .error .valueError

/-- Tail of the binance `received_message` body, from
`symbol, topic = msg['stream'].split('@')` on: unpack the split (a
`ValueError` unless exactly two parts), look up `msg['data']` (`KeyError`
when missing), strip the `kline` interval suffix, resolve the event name,
invoke the registered handler if any, and run the waiter dispatch. -/
def routeStream (parsers : String → Bool)
    (listeners : List (EventListener JValue GatewayError))
    (stream : String) (dataOpt : Option JValue) :
    Except GatewayError
      (List (String × JValue) × List (EventListener JValue GatewayError) ×
        List (Nat × Outcome JValue GatewayError)) :=
  match pySplit '@' stream with
  | [_symbol, topic0] =>
    match dataOpt with
    | none => .error (.keyError "data")
    | some data =>
      let topic := if strContains topic0 "kline" then topic0.dropRight 3 else topic0
      match eventTypeName topic with
      | .error e => .error e
      | .ok event =>
        let invocations := if parsers event then [(event, data)] else []
        let r := remove_dispatched_listeners event data listeners
        .ok (invocations, r.1, r.2)
  | _ => .error .valueError

/-- Body of the binance `received_message` for a decoded dict: the
`msg.get('results', False)` early return, then the `'stream'` unpacking
(`KeyError` when absent, attribute error on a non-string) feeding
`routeStream`. The `self._keep_alive.tick()` call between the two updates
only the monitor's last-receive clock and is not modelled here. -/
def handleEnvelope (parsers : String → Bool)
    (listeners : List (EventListener JValue GatewayError))
    (fields : List (String × JValue)) :
    Except GatewayError
      (List (String × JValue) × List (EventListener JValue GatewayError) ×
        List (Nat × Outcome JValue GatewayError)) :=
  if jTruthy ((lookupField fields "results").getD (.bool false)) then
    .ok ([], listeners, [])
  else
    match lookupField fields "stream" with
    | none => .error (.keyError "stream")
    | some (.str stream) =>
      routeStream parsers listeners stream (lookupField fields "data")
    | some _ => .error .typeError

/-- Method `WebSocket.received_message(msg)` of the binance gateway.
Returns the handler invocations `(event, data)` performed through the
`parsers` table together with the registry after waiter dispatch and the
future completions it made. Every failure mode of the Python body is an
`Except.error`: a decode failure, a non-dict document (`.get` on a
non-dict), a missing `'stream'`/`'data'` key, a non-string stream, a
stream that does not split into exactly two parts at `'@'`, and an unknown
topic; none of these is caught inside the method. -/
def received_message (parsers : String → Bool)
    (listeners : List (EventListener JValue GatewayError)) (raw : RawMsg) :
    Except GatewayError
      (List (String × JValue) × List (EventListener JValue GatewayError) ×
        List (Nat × Outcome JValue GatewayError)) :=
  match loads raw with
  | .error e => .error e
  | .ok (.obj fields) => handleEnvelope parsers listeners fields
  | .ok _ => .error .typeError

end Binance

/-! ## Receive step (`_BaseWebSocket.poll_event`) and the reconnect loop -/

/-- Frame classes delivered by `socket.receive` in `poll_event`: a data
frame (`TEXT`, `BINARY`, `PONG` all call `received_message`), an `ERROR`
frame whose payload is re-raised, a close-class frame, or a receive
timeout. -/
inductive WSFrame where
  | text (raw : RawMsg)
  | binary (raw : RawMsg)
  | pong (raw : RawMsg)
  | wsError (e : GatewayError)
  | closeFrame
  | timeout

/-- Observable outcome of one `poll_event` call: a processed message, a
raised `ReconnectWebSocket`, a raised `ConnectionClosed`, or an exception
that `poll_event` does not catch and therefore propagates to its caller. -/
inductive PollOutcome where
  | processed (invocations : List (String × JValue))
      (kept : List (EventListener JValue GatewayError))
      (completions : List (Nat × Outcome JValue GatewayError))
  | reconnect
  | connectionClosed (code : Option Int)
  | uncaught (e : GatewayError)

/-- Method `_BaseWebSocket.poll_event` for the binance gateway: the `try`
body raises `WebSocketClosure` on close-class frames and `TimeoutError` on
a receive timeout; the `except (TimeoutError, WebSocketClosure)` clause
turns a timeout into `ReconnectWebSocket` and a closure into either
`ReconnectWebSocket` or `ConnectionClosed` depending on
`_can_handle_close`. Any other exception — in particular every decode
failure inside `received_message` — is not caught. -/
def poll_event (parsers : String → Bool)
    (listeners : List (EventListener JValue GatewayError))
    (close_code socket_close_code : Option Int) (frame : WSFrame) : PollOutcome :=
  let tried : Except GatewayError
      (List (String × JValue) × List (EventListener JValue GatewayError) ×
        List (Nat × Outcome JValue GatewayError)) :=
    match frame with
    | .text raw => Binance.received_message parsers listeners raw
    | .binary raw => Binance.received_message parsers listeners raw
    | .pong raw => Binance.received_message parsers listeners raw
    | .wsError e => .error e
    | .closeFrame => .error .websocketClosure
    | .timeout => .error .timeoutErr
  match tried with
  | .ok (invs, kept, outs) => .processed invs kept outs
  | .error .timeoutErr => .reconnect
  | .error .websocketClosure =>
    let code := BaseWebSocket.effectiveCloseCode close_code socket_close_code
    if BaseWebSocket.can_handle_close code then .reconnect
    else .connectionClosed code
  | .error e => .uncaught e

/-- Exception classes caught by the reconnect loop around
`await self.ws.poll_event()` in `_BaseClient.connect` (`client.py`):
`ReconnectWebSocket`, `OSError`, `HTTPException`, `GatewayNotFound`,
`ConnectionClosed`, `ClientError` and `asyncio.TimeoutError`. Of the
gateway-level exceptions modelled here only the receive timeout is among
them; decode-related errors are not. -/
def connectLoopCatches : GatewayError → Bool
  | .timeoutErr => true
  | _ => false

/-! ## Outbound send paths and the rate-limiter gate -/

/-- Observable operations of an outbound code path: acquiring the rate
limiter (`await self.rate_limiter.block()`), firing the raw-send dispatch
callback, and writing a frame to the socket (`send_str` / `send_json`). -/
inductive SendOp where
  | acquire
  | dispatchCb
  | write
deriving Repr, DecidableEq

/-- Operation sequence of `_BaseWebSocket.send` (`base_gateway.py`): block
on the rate limiter, dispatch `socket_raw_send`, then write. -/
def send_ops : List SendOp := [.acquire, .dispatchCb, .write]

/-- Operation sequence of the binance `WebSocket.subscribe`: it builds the
payload and calls `self.socket.send_json(payload)` directly. -/
def binance_subscribe_ops : List SendOp := [.write]

/-- Operation sequence of the binance `WebSocket.unsubscribe`: a direct
`self.socket.send_json(payload)`. -/
def binance_unsubscribe_ops : List SendOp := [.write]

/-- Operation sequence of the bitmex `WebSocket.subscribe`: a direct
`self.socket.send_json(payload)`. -/
def bitmex_subscribe_ops : List SendOp := [.write]

/-- Operation sequence of the bitmex `WebSocket.unsubscribe`: a direct
`self.socket.send_json(payload)`. -/
def bitmex_unsubscribe_ops : List SendOp := [.write]

/-- Modelled from the spec: the heartbeat send path. `KeepAliveHandler.run`
calls `self.ws.send_heartbeat(data)`, but no gateway class in the
repository defines `send_heartbeat`; the spec states that heartbeat frames
go out "through RateLimiter-gated send", i.e. through
`_BaseWebSocket.send`, whose operation sequence this repeats. -/
def send_heartbeat_ops : List SendOp := send_ops

/-- Scan of an operation trace: `true` when every socket write is preceded
(anywhere earlier in the trace) by a rate-limiter acquire. -/
def acquiredBefore (acquired : Bool) : List SendOp → Bool
  | [] => true
  | .acquire :: rest => acquiredBefore true rest
  | .write :: rest => acquired && acquiredBefore acquired rest
  | .dispatchCb :: rest => acquiredBefore acquired rest

/-- Whether a send path passes through the rate limiter before every write. -/
def writesGuarded (tr : List SendOp) : Bool :=
  acquiredBefore false tr

/-! ## Bitmex router (`sockets/bitmex/gateway.py`) -/

namespace Bitmex

/-- Python `while data: func(data.pop())`: the sequence of values handed to
the handler, popping from the end until the list is empty. -/
def drainPop : List JValue → List JValue
  | [] => []
  | x :: xs =>
    (x :: xs).getLast (by simp) :: drainPop (x :: xs).dropLast
termination_by l => l.length
decreasing_by simp

/-- Python `'success' in payload` for the shapes that can occur: key
membership on a dict, string membership on a list, substring on a string;
anything else raises `TypeError`. -/
def containsSuccess : JValue → Except GatewayError Bool
  | .obj fs => .ok (fs.any (fun f => f.1 = "success"))
  | .arr xs => .ok (xs.any (fun x => match x with | .str s => s = "success" | _ => false))
  | .str s => .ok (strContains s "success")
  | _ => .error .typeError

/-- Dictionary subscript `payload[key]` (raises `KeyError` when missing,
`TypeError` on a non-dict). -/
def subscript (v : JValue) (key : String) : Except GatewayError JValue :=
  match v with
  | .obj fs =>
    match lookupField fs key with
    | some x => .ok x
    | none => .error (.keyError key)
  | _ => .error .typeError

/-- Method `WebSocket.received_message(msg)` of the bitmex gateway. The
positional envelope is `msg[0] = op`, `msg[3] = payload`; `op == 2`
(UNSUBSCRIBE) and subscription confirmations return early; otherwise
`payload['table']`, `payload['action']`, `payload['data']` are unpacked,
the event name is `TABLE_ACTION` upper-cased, and when a handler is
registered the data array is destructively drained from the end before the
waiter dispatch runs on what is left of it. `handleTableEvent` is the tail
of the body from `table, action, data = payload['table'], ...` on. -/
def handleTableEvent (parsers : String → Bool)
    (listeners : List (EventListener JValue GatewayError)) (payload : JValue) :
    Except GatewayError
      (List (String × JValue) × List (EventListener JValue GatewayError) ×
        List (Nat × Outcome JValue GatewayError)) :=
  match subscript payload "table", subscript payload "action",
      subscript payload "data" with
  | .error e, _, _ => .error e
  | .ok _, .error e, _ => .error e
  | .ok _, .ok _, .error e => .error e
  | .ok (.str table), .ok (.str action), .ok dataV =>
    let event := pyUpper table ++ "_" ++ pyUpper action
    if parsers event then
      match dataV with
      | .arr xs =>
        let invocations := (drainPop xs).map (fun x => (event, x))
        let r := remove_dispatched_listeners event (JValue.arr []) listeners
        .ok (invocations, r.1, r.2)
      | other =>
        if jTruthy other then .error .typeError
        else
          let r := remove_dispatched_listeners event other listeners
          .ok ([], r.1, r.2)
    else
      let r := remove_dispatched_listeners event dataV listeners
      .ok ([], r.1, r.2)
  | .ok _, .ok _, .ok _ => .error .typeError

/-- Head of the bitmex `received_message(msg)` method: decode, unpack the
positional envelope `op = msg[0]`, `payload = msg[3]`, return early on
`op == UNSUBSCRIBE` and on subscription confirmations
(`op == MESSAGE and 'success' in payload`), otherwise process the table
event. The keep-alive `tick()` updates only the monitor's last-receive
clock and is not modelled here. -/
def received_message (parsers : String → Bool)
    (listeners : List (EventListener JValue GatewayError)) (raw : RawMsg) :
    Except GatewayError
      (List (String × JValue) × List (EventListener JValue GatewayError) ×
        List (Nat × Outcome JValue GatewayError)) :=
  match loads raw with
  | .error e => .error e
  | .ok (.arr elems) =>
    match elems[0]?, elems[3]? with
    | none, _ => .error .indexError
    | some _, none => .error .indexError
    | some op, some payload =>
      let isUnsub := match op with | .num n => decide (n = 2) | _ => false
      if isUnsub then .ok ([], listeners, [])
      else
        let isMessageOp := match op with | .num n => decide (n = 0) | _ => false
        match (if isMessageOp then containsSuccess payload else .ok false) with
        | .error e => .error e
        | .ok true => .ok ([], listeners, [])
        | .ok false => handleTableEvent parsers listeners payload
  | .ok _ => .error .typeError

end Bitmex

/-! ## Rate-limiter lemmas -/

/-- Fields of the reset step: `max`, `per`, `window` are untouched and the
remaining count either stays or is reset to `max`. -/
theorem resetIfElapsed_fields (s : GatewayRatelimiter) (t : ℚ) :
    (s.resetIfElapsed t).max = s.max ∧ (s.resetIfElapsed t).per = s.per ∧
      (s.resetIfElapsed t).window = s.window ∧
      ((s.resetIfElapsed t).remaining = s.remaining ∨
        (s.resetIfElapsed t).remaining = s.max) := by
  unfold GatewayRatelimiter.resetIfElapsed
  split_ifs <;> simp

/-- Fields of the refill step: `max` and `per` are untouched, the remaining
count either stays or is reset to `max`, and the window either stays or
becomes the call time. -/
theorem refill_fields (s : GatewayRatelimiter) (t : ℚ) :
    (s.refill t).max = s.max ∧ (s.refill t).per = s.per ∧
      ((s.refill t).remaining = s.remaining ∨ (s.refill t).remaining = s.max) ∧
      ((s.refill t).window = s.window ∨ (s.refill t).window = t) := by
  obtain ⟨hm, hp, hw, hr⟩ := resetIfElapsed_fields s t
  unfold GatewayRatelimiter.refill
  split_ifs <;> simp_all

/-- If the window has not elapsed, the reset branch does not fire and
`refill` keeps the remaining count. -/
theorem refill_remaining_of_not_elapsed {s : GatewayRatelimiter} {t : ℚ}
    (h : ¬ s.window + s.per < t) :
    (s.refill t).remaining = s.remaining ∧ (s.refill t).per = s.per ∧
      (s.refill t).max = s.max ∧
      ((s.refill t).window = s.window ∨ (s.refill t).window = t) := by
  unfold GatewayRatelimiter.refill GatewayRatelimiter.resetIfElapsed
  rw [if_neg h]
  split_ifs <;> simp

/-- Invariant preservation of a single `get_delay` call: the remaining
count stays within `[0, max]`, and `max` and `per` are never written. -/
theorem get_delay_inv {s : GatewayRatelimiter} (t : ℚ)
    (h0 : 0 ≤ s.remaining) (h1 : s.remaining ≤ s.max) :
    0 ≤ (s.get_delay t).2.remaining ∧
      (s.get_delay t).2.remaining ≤ (s.get_delay t).2.max ∧
      (s.get_delay t).2.max = s.max ∧ (s.get_delay t).2.per = s.per := by
  obtain ⟨hm, hp, hr, hw⟩ := refill_fields s t
  unfold GatewayRatelimiter.get_delay
  split_ifs with hz hz1
  · exact ⟨by rw [hz], by rw [hz, hm]; exact h0.trans h1, hm, hp⟩
  · refine ⟨?_, ?_, hm, hp⟩
    · show 0 ≤ (s.refill t).remaining - 1
      rcases hr with h | h <;> omega
    · show (s.refill t).remaining - 1 ≤ (s.refill t).max
      rw [hm]; rcases hr with h | h <;> omega
  · refine ⟨?_, ?_, hm, hp⟩
    · show 0 ≤ (s.refill t).remaining - 1
      rcases hr with h | h <;> omega
    · show (s.refill t).remaining - 1 ≤ (s.refill t).max
      rw [hm]; rcases hr with h | h <;> omega

/-- Behaviour of one `get_delay` call at a time inside the current window:
`max`, `per` are untouched, the window start can only move forward (at most
to the call time); an exhausted bucket returns a positive delay without
consuming, a non-exhausted one returns zero delay and consumes one token. -/
theorem get_delay_step {s : GatewayRatelimiter} {t : ℚ}
    (hw : s.window ≤ t) (hlt : t < s.window + s.per) :
    ((s.get_delay t).2.max = s.max ∧ (s.get_delay t).2.per = s.per ∧
      s.window ≤ (s.get_delay t).2.window ∧ (s.get_delay t).2.window ≤ t) ∧
    (s.remaining = 0 → (s.get_delay t).1 ≠ 0 ∧ (s.get_delay t).2.remaining = 0) ∧
    (s.remaining ≠ 0 →
      (s.get_delay t).1 = 0 ∧ (s.get_delay t).2.remaining = s.remaining - 1) := by
  have hnr : ¬ s.window + s.per < t := by linarith
  obtain ⟨hrem, hp, hm, hwin⟩ := refill_remaining_of_not_elapsed (t := t) hnr
  have hwlo : s.window ≤ (s.refill t).window := by
    rcases hwin with h | h <;> rw [h]
    exact hw
  have hwhi : (s.refill t).window ≤ t := by
    rcases hwin with h | h <;> rw [h]
    exact hw
  unfold GatewayRatelimiter.get_delay
  split_ifs with hz hz1
  · refine ⟨⟨hm, hp, hwlo, hwhi⟩, fun _ => ⟨?_, hz⟩,
      fun hne => absurd (hrem.symm.trans hz) hne⟩
    have hpos : (0:ℚ) < (s.refill t).per - (t - (s.refill t).window) := by
      rw [hp]; linarith
    exact ne_of_gt hpos
  · refine ⟨⟨hm, hp, hw, le_rfl⟩, fun h0 => absurd (hrem.trans h0) hz,
      fun _ => ⟨rfl, ?_⟩⟩
    show (s.refill t).remaining - 1 = s.remaining - 1
    rw [hrem]
  · refine ⟨⟨hm, hp, hwlo, hwhi⟩, fun h0 => absurd (hrem.trans h0) hz,
      fun _ => ⟨rfl, ?_⟩⟩
    show (s.refill t).remaining - 1 = s.remaining - 1
    rw [hrem]

/-- Zero-delay admissions of a nondecreasing call sequence that stays
strictly inside the current window are bounded by the remaining token count
at the start of the sequence. -/
theorem countZeros_runCalls_le (ts : List ℚ) :
    ∀ s : GatewayRatelimiter, 0 ≤ s.remaining → s.remaining ≤ s.max →
      List.Pairwise (· ≤ ·) ts →
      (∀ t ∈ ts, s.window ≤ t ∧ t < s.window + s.per) →
      (countZeros (s.runCalls ts).1 : Int) ≤ s.remaining := by
  induction ts with
  | nil =>
    intro s h0 _ _ _
    simpa [GatewayRatelimiter.runCalls, countZeros] using h0
  | cons t ts ih =>
    intro s h0 h1 hpw hb
    obtain ⟨hwt, hlt⟩ := hb t (List.mem_cons_self t ts)
    obtain ⟨⟨hm, hp, hwlo, hwhi⟩, hzero, hspend⟩ := get_delay_step hwt hlt
    rw [List.pairwise_cons] at hpw
    obtain ⟨hle, hpw1⟩ := hpw
    have hbs1 : ∀ u ∈ ts, (s.get_delay t).2.window ≤ u ∧
        u < (s.get_delay t).2.window + (s.get_delay t).2.per := by
      intro u hu
      obtain ⟨hu1, hu2⟩ := hb u (List.mem_cons_of_mem _ hu)
      exact ⟨le_trans hwhi (hle u hu), by rw [hp]; linarith⟩
    have hrun : (s.runCalls (t :: ts)).1 =
        (s.get_delay t).1 :: ((s.get_delay t).2.runCalls ts).1 := rfl
    by_cases hz : s.remaining = 0
    · obtain ⟨hd, hr⟩ := hzero hz
      have hc : countZeros ((s.runCalls (t :: ts)).1) =
          countZeros (((s.get_delay t).2.runCalls ts).1) := by
        rw [hrun]; simp [countZeros, List.countP_cons, hd]
      have := ih (s.get_delay t).2 (by rw [hr]) (by rw [hr, hm]; exact h0.trans h1)
        hpw1 hbs1
      rw [hc]; rw [hr] at this; omega
    · obtain ⟨hd, hr⟩ := hspend hz
      have hc : countZeros ((s.runCalls (t :: ts)).1) =
          countZeros (((s.get_delay t).2.runCalls ts).1) + 1 := by
        rw [hrun]; simp [countZeros, List.countP_cons, hd]
      have := ih (s.get_delay t).2 (by rw [hr]; omega) (by rw [hr, hm]; omega)
        hpw1 hbs1
      rw [hc]; rw [hr] at this; push_cast; omega

/-! ## Waiter-registry lemmas -/

/-- The dispatch pass distributes over list append: each entry is treated
independently of its neighbours, and both the kept entries and the
completions appear in list order. -/
theorem rdl_append (event : String) (data : α) (l1 l2 : List (EventListener α ε)) :
    remove_dispatched_listeners event data (l1 ++ l2) =
      ((remove_dispatched_listeners event data l1).1 ++
        (remove_dispatched_listeners event data l2).1,
       (remove_dispatched_listeners event data l1).2 ++
        (remove_dispatched_listeners event data l2).2) := by
  induction l1 with
  | nil => simp [remove_dispatched_listeners]
  | cons e rest ih =>
    by_cases h1 : e.event ≠ event
    · simp [remove_dispatched_listeners, h1, ih]
    · by_cases h2 : e.cancelled
      · simp [remove_dispatched_listeners, h1, h2, ih]
      · rcases hp : e.predicate data with exc | b
        · simp [remove_dispatched_listeners, h1, h2, hp, ih]
        · cases b <;> simp [remove_dispatched_listeners, h1, h2, hp, ih]

/-- The entries kept by a dispatch pass are a sublist of the registry (kept
entries are untouched; the pass only deletes). -/
theorem rdl_kept_sublist (event : String) (data : α)
    (l : List (EventListener α ε)) :
    (remove_dispatched_listeners event data l).1.Sublist l := by
  induction l with
  | nil => simp [remove_dispatched_listeners]
  | cons e rest ih =>
    by_cases h1 : e.event ≠ event
    · simpa [remove_dispatched_listeners, h1] using ih.cons₂ e
    · by_cases h2 : e.cancelled
      · simpa [remove_dispatched_listeners, h1, h2] using ih.cons e
      · rcases hp : e.predicate data with exc | b
        · simpa [remove_dispatched_listeners, h1, h2, hp] using ih.cons e
        · cases b
          · simpa [remove_dispatched_listeners, h1, h2, hp] using ih.cons₂ e
          · simpa [remove_dispatched_listeners, h1, h2, hp] using ih.cons e

/-- Every future completed by a dispatch pass belongs to an entry of the
registry the pass ran on. -/
theorem rdl_completed_mem_fids (event : String) (data : α)
    (l : List (EventListener α ε)) :
    ∀ p ∈ (remove_dispatched_listeners event data l).2,
      p.1 ∈ l.map EventListener.fid := by
  induction l with
  | nil => simp [remove_dispatched_listeners]
  | cons e rest ih =>
    intro p hp0
    by_cases h1 : e.event ≠ event
    · simp only [remove_dispatched_listeners, if_pos h1] at hp0
      exact List.mem_cons_of_mem _ (ih p hp0)
    · by_cases h2 : e.cancelled
      · simp only [remove_dispatched_listeners, if_neg h1, if_pos h2] at hp0
        exact List.mem_cons_of_mem _ (ih p hp0)
      · rcases hp : e.predicate data with exc | b
        · simp only [remove_dispatched_listeners, if_neg h1, if_neg h2, hp,
            List.mem_cons] at hp0
          rcases hp0 with rfl | hmem
          · exact List.mem_cons_self _ _
          · exact List.mem_cons_of_mem _ (ih p hmem)
        · cases b
          · simp only [remove_dispatched_listeners, if_neg h1, if_neg h2, hp] at hp0
            exact List.mem_cons_of_mem _ (ih p hp0)
          · simp only [remove_dispatched_listeners, if_neg h1, if_neg h2, hp,
              List.mem_cons] at hp0
            rcases hp0 with rfl | hmem
            · exact List.mem_cons_self _ _
            · exact List.mem_cons_of_mem _ (ih p hmem)

/-- When the futures in the registry are pairwise distinct, one dispatch
pass completes each future at most once. -/
theorem rdl_completed_nodup (event : String) (data : α)
    (l : List (EventListener α ε)) (h : (l.map EventListener.fid).Nodup) :
    ((remove_dispatched_listeners event data l).2.map Prod.fst).Nodup := by
  induction l with
  | nil => simp [remove_dispatched_listeners]
  | cons e rest ih =>
    rw [List.map_cons, List.nodup_cons] at h
    obtain ⟨hnotin, hrest⟩ := h
    have hout : e.fid ∉ (remove_dispatched_listeners event data rest).2.map Prod.fst := by
      intro hmem
      rw [List.mem_map] at hmem
      obtain ⟨p, hpmem, hpeq⟩ := hmem
      exact hnotin (hpeq ▸ rdl_completed_mem_fids event data rest p hpmem)
    by_cases h1 : e.event ≠ event
    · simpa [remove_dispatched_listeners, h1] using ih hrest
    · by_cases h2 : e.cancelled
      · simpa [remove_dispatched_listeners, h1, h2] using ih hrest
      · rcases hp : e.predicate data with exc | b
        · simp only [remove_dispatched_listeners, if_neg h1, if_neg h2, hp,
            List.map_cons, List.nodup_cons]
          exact ⟨hout, ih hrest⟩
        · cases b
          · simpa [remove_dispatched_listeners, h1, h2, hp] using ih hrest
          · simp only [remove_dispatched_listeners, if_neg h1, if_neg h2, hp,
              List.map_cons, List.nodup_cons]
            exact ⟨hout, ih hrest⟩

/-- A single dispatch step on a matching, pending entry whose predicate
returns true: completed with the transformed payload and removed. -/
theorem rdl_cons_matching_true (event : String) (data : α)
    (e : EventListener α ε) (l : List (EventListener α ε))
    (hev : e.event = event) (hnc : e.cancelled = false)
    (hp : e.predicate data = Except.ok true) :
    remove_dispatched_listeners event data (e :: l) =
      ((remove_dispatched_listeners event data l).1,
       (e.fid, Outcome.done (applyResult e.result data)) ::
        (remove_dispatched_listeners event data l).2) := by
  simp [remove_dispatched_listeners, hev, hnc, hp]

/-! ## String-splitting lemmas -/

/-- The Python split never returns an empty list of parts. -/
theorem pySplitChars_ne_nil (sep : Char) (l : List Char) :
    pySplitChars sep l ≠ [] := by
  cases l with
  | nil => simp [pySplitChars]
  | cons c cs =>
    rw [pySplitChars]
    split
    · simp
    · split_ifs <;> simp

/-- Splitting a list that does not contain the separator yields the list
itself as the single part. -/
theorem pySplitChars_no_sep (sep : Char) (l : List Char) (h : sep ∉ l) :
    pySplitChars sep l = [l] := by
  induction l with
  | nil => rfl
  | cons c cs ih =>
    rw [List.mem_cons, not_or] at h
    have hcs : ¬ c = sep := fun hc => h.1 hc.symm
    rw [pySplitChars, ih h.2]
    simp [hcs]

/-- Splitting around the first separator occurrence: the prefix before it
becomes the first part. -/
theorem pySplitChars_append (sep : Char) (l1 l2 : List Char) (h : sep ∉ l1) :
    pySplitChars sep (l1 ++ sep :: l2) = l1 :: pySplitChars sep l2 := by
  induction l1 with
  | nil =>
    rw [List.nil_append, pySplitChars]
    rcases hq : pySplitChars sep l2 with _ | ⟨p, ps⟩
    · exact absurd hq (pySplitChars_ne_nil sep l2)
    · simp
  | cons c cs ih =>
    rw [List.mem_cons, not_or] at h
    have hcs : ¬ c = sep := fun hc => h.1 hc.symm
    rw [List.cons_append, pySplitChars, ih h.2]
    simp [hcs]

/-- Python `(sym + "@ticker").split('@')` for a symbol without `'@'`. -/
theorem pySplit_symbol_ticker (sym : String) (h : '@' ∉ sym.toList) :
    pySplit '@' (sym ++ "@ticker") = [sym, "ticker"] := by
  have h1 : (sym ++ "@ticker").toList = sym.toList ++ '@' :: "ticker".toList := by
    show (sym ++ "@ticker").data = sym.data ++ '@' :: "ticker".data
    rw [String.data_append]
  have hmk : ∀ s : String, String.mk s.toList = s := fun s => rfl
  unfold pySplit
  rw [h1, pySplitChars_append '@' sym.toList _ h,
    pySplitChars_no_sep '@' _ (by decide)]
  simp only [List.map_cons, List.map_nil, hmk]

/-! ## Bitmex drain lemma -/

/-- Draining with `data.pop()` until the list is empty visits the elements
in reverse order. -/
theorem drainPop_eq_reverse (l : List JValue) :
    Bitmex.drainPop l = l.reverse := by
  suffices h : ∀ (n : Nat) (l : List JValue), l.length = n →
      Bitmex.drainPop l = l.reverse by
    exact h l.length l rfl
  intro n
  induction n with
  | zero =>
    intro l hl
    rw [List.length_eq_zero] at hl
    subst hl
    rw [Bitmex.drainPop, List.reverse_nil]
  | succ n ih =>
    intro l hl
    cases l with
    | nil => simp at hl
    | cons x xs =>
      rw [Bitmex.drainPop]
      have hlen : ((x :: xs).dropLast).length = n := by
        simp only [List.length_cons] at hl
        simp only [List.length_dropLast, List.length_cons]
        omega
      rw [ih _ hlen]
      conv_rhs => rw [← List.dropLast_append_getLast
        (show x :: xs ≠ [] by simp)]
      rw [List.reverse_append]
      rfl

/-! ## Claim theorems: rate limiter -/

/-- C2 (counterexample to the claim as stated): with capacity 3 and a
1-second window, the four calls at times 0, 0, 0, 1 are nondecreasing and
all lie inside the limiter's window (the code resets only when the clock is
strictly beyond `window + per`, and 1 is not), yet all four acquisitions
are admitted with zero delay: at time 1 the exhausted bucket returns
`per - (current - window) = 0` without consuming a token, so the number of
zero-delay admissions in one window exceeds the capacity. -/
theorem C2_zero_delay_counterexample :
    List.Pairwise (· ≤ ·) [(0:ℚ), 0, 0, 1] ∧
    (∀ t ∈ [(0:ℚ), 0, 0, 1],
      (GatewayRatelimiter.init 3 1).window ≤ t ∧
        t ≤ (GatewayRatelimiter.init 3 1).window + (GatewayRatelimiter.init 3 1).per) ∧
    ((GatewayRatelimiter.init 3 1).runCalls [0, 0, 0, 1]).1 = [0, 0, 0, 0] ∧
    countZeros ((GatewayRatelimiter.init 3 1).runCalls [0, 0, 0, 1]).1 = 4 ∧
    (GatewayRatelimiter.init 3 1).max = 3 := by
  have c1 : (GatewayRatelimiter.init 3 1).get_delay 0 = (0, ⟨3, 2, 0, 1⟩) := by
    unfold GatewayRatelimiter.get_delay GatewayRatelimiter.refill
      GatewayRatelimiter.resetIfElapsed GatewayRatelimiter.init
    norm_num
  have c2 : (⟨3, 2, 0, 1⟩ : GatewayRatelimiter).get_delay 0 = (0, ⟨3, 1, 0, 1⟩) := by
    unfold GatewayRatelimiter.get_delay GatewayRatelimiter.refill
      GatewayRatelimiter.resetIfElapsed
    norm_num
  have c3 : (⟨3, 1, 0, 1⟩ : GatewayRatelimiter).get_delay 0 = (0, ⟨3, 0, 0, 1⟩) := by
    unfold GatewayRatelimiter.get_delay GatewayRatelimiter.refill
      GatewayRatelimiter.resetIfElapsed
    norm_num
  have c4 : (⟨3, 0, 0, 1⟩ : GatewayRatelimiter).get_delay 1 = (0, ⟨3, 0, 0, 1⟩) := by
    unfold GatewayRatelimiter.get_delay GatewayRatelimiter.refill
      GatewayRatelimiter.resetIfElapsed
    norm_num
  have hrun : ((GatewayRatelimiter.init 3 1).runCalls [0, 0, 0, 1]).1 =
      [0, 0, 0, 0] := by
    simp [GatewayRatelimiter.runCalls, c1, c2, c3, c4]
  refine ⟨?_, ?_, hrun, ?_, rfl⟩
  · norm_num [List.pairwise_cons]
  · intro t ht
    fin_cases ht <;> norm_num [GatewayRatelimiter.init]
  · rw [hrun]
    simp [countZeros]

/-- C2 (amended): for every sequence of `get_delay` calls at nondecreasing
times that stay strictly before the window boundary `window + per`, the
number of acquisitions admitted with zero delay never exceeds the capacity
(at the boundary instant itself an exhausted bucket returns delay 0 without
consuming a token, so strictness is required); and in the concrete scenario
`capacity = 3`, `windowLength = 1`, four rapid calls (all within less than
1 second of the first) return delay 0 for the first three while the fourth
returns the positive delay `1 - (t4 - t3)`, the time remaining until the
window (restarted at the exhausting third call) resets. -/
theorem C2_zero_delay_bound_amended :
    (∀ (s : GatewayRatelimiter) (ts : List ℚ), 0 ≤ s.remaining →
        s.remaining ≤ s.max → List.Pairwise (· ≤ ·) ts →
        (∀ t ∈ ts, s.window ≤ t ∧ t < s.window + s.per) →
        (countZeros (s.runCalls ts).1 : Int) ≤ s.max) ∧
    (∀ t1 t2 t3 t4 : ℚ, t1 ≤ t2 → t2 ≤ t3 → t3 ≤ t4 → t4 < t1 + 1 →
        ((GatewayRatelimiter.init 3 1).runCalls [t1, t2, t3, t4]).1 =
          [0, 0, 0, 1 - (t4 - t3)] ∧ 0 < 1 - (t4 - t3)) := by
  constructor
  · intro s ts h0 h1 hpw hb
    exact le_trans (countZeros_runCalls_le ts s h0 h1 hpw hb) h1
  · intro t1 t2 t3 t4 h12 h23 h34 h41
    have e1 : (GatewayRatelimiter.init 3 1).get_delay t1 = (0, ⟨3, 2, t1, 1⟩) := by
      have r0 : (GatewayRatelimiter.init 3 1).resetIfElapsed t1 =
          GatewayRatelimiter.init 3 1 := by
        unfold GatewayRatelimiter.resetIfElapsed
        split_ifs <;> rfl
      have r1 : (GatewayRatelimiter.init 3 1).refill t1 = ⟨3, 3, t1, 1⟩ := by
        unfold GatewayRatelimiter.refill
        rw [r0]
        norm_num [GatewayRatelimiter.init]
      unfold GatewayRatelimiter.get_delay
      rw [r1]
      norm_num
    have e2 : (⟨3, 2, t1, 1⟩ : GatewayRatelimiter).get_delay t2 =
        (0, ⟨3, 1, t1, 1⟩) := by
      have r0 : (⟨3, 2, t1, 1⟩ : GatewayRatelimiter).resetIfElapsed t2 =
          ⟨3, 2, t1, 1⟩ := by
        unfold GatewayRatelimiter.resetIfElapsed
        rw [if_neg (by push_cast; linarith)]
      have r1 : (⟨3, 2, t1, 1⟩ : GatewayRatelimiter).refill t2 = ⟨3, 2, t1, 1⟩ := by
        unfold GatewayRatelimiter.refill
        rw [r0]
        norm_num
      unfold GatewayRatelimiter.get_delay
      rw [r1]
      norm_num
    have e3 : (⟨3, 1, t1, 1⟩ : GatewayRatelimiter).get_delay t3 =
        (0, ⟨3, 0, t3, 1⟩) := by
      have r0 : (⟨3, 1, t1, 1⟩ : GatewayRatelimiter).resetIfElapsed t3 =
          ⟨3, 1, t1, 1⟩ := by
        unfold GatewayRatelimiter.resetIfElapsed
        rw [if_neg (by push_cast; linarith)]
      have r1 : (⟨3, 1, t1, 1⟩ : GatewayRatelimiter).refill t3 = ⟨3, 1, t1, 1⟩ := by
        unfold GatewayRatelimiter.refill
        rw [r0]
        norm_num
      unfold GatewayRatelimiter.get_delay
      rw [r1]
      norm_num
    have e4 : (⟨3, 0, t3, 1⟩ : GatewayRatelimiter).get_delay t4 =
        (1 - (t4 - t3), ⟨3, 0, t3, 1⟩) := by
      have r0 : (⟨3, 0, t3, 1⟩ : GatewayRatelimiter).resetIfElapsed t4 =
          ⟨3, 0, t3, 1⟩ := by
        unfold GatewayRatelimiter.resetIfElapsed
        rw [if_neg (by push_cast; linarith)]
      have r1 : (⟨3, 0, t3, 1⟩ : GatewayRatelimiter).refill t4 = ⟨3, 0, t3, 1⟩ := by
        unfold GatewayRatelimiter.refill
        rw [r0]
        norm_num
      unfold GatewayRatelimiter.get_delay
      rw [r1]
      norm_num
    refine ⟨?_, by linarith⟩
    simp [GatewayRatelimiter.runCalls, e1, e2, e3, e4]

/-- C2 witness: the amended theorem applied to concrete inputs — three
calls at times 0, 1/4, 1/2 admit at most 3 zero-delay acquisitions, and
the four-rapid-calls scenario at times 0, 1/4, 1/2, 3/4 yields delays
0, 0, 0, 1/4. -/
theorem C2_zero_delay_bound_amended_witness :
    ((countZeros ((GatewayRatelimiter.init 3 1).runCalls [0, (1:ℚ)/4, 1/2]).1 : Int) ≤
        (GatewayRatelimiter.init 3 1).max) ∧
    ((GatewayRatelimiter.init 3 1).runCalls [0, (1:ℚ)/4, 1/2, 3/4]).1 =
        [0, 0, 0, 1 - ((3:ℚ)/4 - 1/2)] ∧ (0:ℚ) < 1 - ((3:ℚ)/4 - 1/2) :=
  ⟨C2_zero_delay_bound_amended.1 (GatewayRatelimiter.init 3 1) [0, (1:ℚ)/4, 1/2]
      (by norm_num [GatewayRatelimiter.init])
      (by norm_num [GatewayRatelimiter.init])
      (by norm_num [List.pairwise_cons])
      (by intro t ht; fin_cases ht <;> norm_num [GatewayRatelimiter.init]),
    C2_zero_delay_bound_amended.2 0 ((1:ℚ)/4) (1/2) (3/4)
      (by norm_num) (by norm_num) (by norm_num) (by norm_num)⟩

/-- C3: once a full window length has elapsed (`window + per < now`), the
next `get_delay` call resets the remaining token count to the capacity and
moves the window start to `now`, regardless of the previous count; the same
call then consumes one token (for a nonzero capacity) and is admitted with
zero delay. -/
theorem C3_window_elapsed_resets (s : GatewayRatelimiter) (current : ℚ)
    (h : s.window + s.per < current) :
    (s.refill current).remaining = s.max ∧ (s.refill current).window = current ∧
      (s.max ≠ 0 →
        (s.get_delay current).1 = 0 ∧
        (s.get_delay current).2.remaining = s.max - 1 ∧
        (s.get_delay current).2.window = current) := by
  have hreset : s.resetIfElapsed current = { s with remaining := s.max } := by
    unfold GatewayRatelimiter.resetIfElapsed
    rw [if_pos h]
  have hrefill : s.refill current =
      { max := s.max, remaining := s.max, window := current, per := s.per } := by
    unfold GatewayRatelimiter.refill
    rw [hreset]
    simp
  refine ⟨by rw [hrefill], by rw [hrefill], fun hmz => ?_⟩
  unfold GatewayRatelimiter.get_delay
  rw [hrefill]
  split_ifs with hz h1
  · exact absurd hz hmz
  · exact ⟨rfl, rfl, rfl⟩
  · exact ⟨rfl, rfl, rfl⟩

/-- C3 witness: a limiter with capacity 5 whose window started at 0 with
window length 1, polled at time 2. -/
theorem C3_window_elapsed_resets_witness :
    ((GatewayRatelimiter.init 5 1).window + (GatewayRatelimiter.init 5 1).per < 2) ∧
    (((GatewayRatelimiter.init 5 1).refill 2).remaining = 5 ∧
      ((GatewayRatelimiter.init 5 1).refill 2).window = 2 ∧
      ((5:Int) ≠ 0 →
        ((GatewayRatelimiter.init 5 1).get_delay 2).1 = 0 ∧
        ((GatewayRatelimiter.init 5 1).get_delay 2).2.remaining = 5 - 1 ∧
        ((GatewayRatelimiter.init 5 1).get_delay 2).2.window = 2)) :=
  ⟨by norm_num [GatewayRatelimiter.init],
    C3_window_elapsed_resets (GatewayRatelimiter.init 5 1) 2
      (by norm_num [GatewayRatelimiter.init])⟩

/-- C9: the remaining token count never goes negative and never exceeds
the capacity: starting from a fresh limiter with nonnegative capacity,
after every `get_delay` (equivalently `block`, whose state effect is the
same, while `is_ratelimited` reads without mutating) the invariant
`0 ≤ remaining ≤ capacity` holds. -/
theorem C9_remaining_in_bounds (count : Int) (per : ℚ) (ts : List ℚ)
    (hc : 0 ≤ count) :
    ∀ s1 ∈ (GatewayRatelimiter.init count per).runStates ts,
      0 ≤ s1.remaining ∧ s1.remaining ≤ count := by
  suffices h : ∀ (us : List ℚ) (s : GatewayRatelimiter), 0 ≤ s.remaining →
      s.remaining ≤ s.max → s.max = count →
      ∀ s1 ∈ s.runStates us, 0 ≤ s1.remaining ∧ s1.remaining ≤ count by
    exact h ts _ hc le_rfl rfl
  intro us
  induction us with
  | nil =>
    intro s _ _ _ s1 h1
    simp [GatewayRatelimiter.runStates] at h1
  | cons t us ih =>
    intro s h0 h1 hmax s1 hmem
    obtain ⟨hi0, hi1, him, _⟩ := get_delay_inv (s := s) t h0 h1
    simp only [GatewayRatelimiter.runStates, List.mem_cons] at hmem
    rcases hmem with rfl | hmem2
    · exact ⟨hi0, by rw [← hmax, ← him]; exact hi1⟩
    · exact ih (s.get_delay t).2 hi0 hi1 (him.trans hmax) s1 hmem2

/-- C9 witness: capacity 5, window length 1, two calls at times 0 and 2. -/
theorem C9_remaining_in_bounds_witness :
    (0:Int) ≤ 5 ∧
    ∀ s1 ∈ (GatewayRatelimiter.init 5 1).runStates [0, 2],
      0 ≤ s1.remaining ∧ s1.remaining ≤ 5 :=
  ⟨by norm_num, C9_remaining_in_bounds 5 1 [0, 2] (by norm_num)⟩

/-! ## Claim theorems: close classification and keep-alive -/

/-- C6: the close-code classification of `_can_handle_close` reports
non-resumable exactly for the fixed terminal tuple 1000, 4004, 4010, 4011,
4012, 4013, 4014 and resumable for every other code. -/
theorem C6_close_code_classification (c : Int) :
    BaseWebSocket.can_handle_close (some c) = false ↔
      c = 1000 ∨ c = 4004 ∨ c = 4010 ∨ c = 4011 ∨ c = 4012 ∨ c = 4013 ∨
        c = 4014 := by
  simp only [BaseWebSocket.can_handle_close, BaseWebSocket.terminalCloseCodes,
    decide_eq_false_iff_not, not_not, List.mem_cons, List.mem_singleton,
    List.not_mem_nil, or_false]

/-- C4: when no inbound frame has arrived within the heartbeat timeout of
the last receive time, the monitor tick takes the staleness branch: it
closes the session with code 4000 and stops itself, and the stored close
code 4000 is classified as reconnectable by `_can_handle_close`, whatever
the transport-level close code is. -/
theorem C4_stale_connection_closes_resumable (sess : SessionState)
    (last_recv heartbeat_timeout now : ℚ) (socket_code : Option Int)
    (h : last_recv + heartbeat_timeout < now) :
    keep_alive_tick last_recv heartbeat_timeout now =
      TickOutcome.closedAndStopped 4000 ∧
    wsCloseSession sess 4000 =
      { close_code := some 4000, keep_alive_running := false } ∧
    BaseWebSocket.can_handle_close
      (BaseWebSocket.effectiveCloseCode (wsCloseSession sess 4000).close_code
        socket_code) = true := by
  refine ⟨?_, rfl, ?_⟩
  · unfold keep_alive_tick
    rw [if_pos h]
  · simp [wsCloseSession, BaseWebSocket.effectiveCloseCode,
      BaseWebSocket.can_handle_close, BaseWebSocket.terminalCloseCodes]

/-! ## Claim theorems: waiter registry -/

/-- C1: a waiter registered for an event with an always-true predicate is,
on the first dispatch of that event, completed exactly once with the
transformed payload (the raw payload when no result transform is given) and
removed from the registry; the remaining entries are dispatched exactly as
they are without it, the removed waiter cannot be completed by any later
dispatch (its future identity no longer occurs in the registry, and
completions only ever reference registry entries), and with distinct
futures in the registry each future is set at most once per pass. -/
theorem C1_waiter_fires_once (event event2 : String) (data data2 : α)
    (l1 l2 : List (EventListener α ε)) (e : EventListener α ε)
    (hev : e.event = event) (hnc : e.cancelled = false)
    (hp : ∀ d, e.predicate d = Except.ok true)
    (hnodup : ((l1 ++ e :: l2).map EventListener.fid).Nodup) :
    remove_dispatched_listeners event data (l1 ++ e :: l2) =
      ((remove_dispatched_listeners event data l1).1 ++
        (remove_dispatched_listeners event data l2).1,
       (remove_dispatched_listeners event data l1).2 ++
        (e.fid, Outcome.done (applyResult e.result data)) ::
          (remove_dispatched_listeners event data l2).2) ∧
    e.fid ∉ (remove_dispatched_listeners event data (l1 ++ e :: l2)).1.map
        EventListener.fid ∧
    e.fid ∉ ((remove_dispatched_listeners event2 data2
        (remove_dispatched_listeners event data (l1 ++ e :: l2)).1).2.map
          Prod.fst) ∧
    ((remove_dispatched_listeners event data (l1 ++ e :: l2)).2.map
        Prod.fst).Nodup := by
  have hsplit := rdl_append event data l1 (e :: l2)
  have hcons := rdl_cons_matching_true event data e l2 hev hnc (hp data)
  have hkept : (remove_dispatched_listeners event data (l1 ++ e :: l2)).1 =
      (remove_dispatched_listeners event data l1).1 ++
        (remove_dispatched_listeners event data l2).1 := by
    rw [hsplit, hcons]
  have hnodup0 := hnodup
  rw [List.map_append, List.map_cons, List.nodup_append] at hnodup
  obtain ⟨hn1, hn2, hdisj⟩ := hnodup
  have hf1 : e.fid ∉ l1.map EventListener.fid := fun hmem =>
    hdisj hmem (List.mem_cons_self _ _)
  have hf2 : e.fid ∉ l2.map EventListener.fid := (List.nodup_cons.mp hn2).1
  have hkf : e.fid ∉
      (remove_dispatched_listeners event data (l1 ++ e :: l2)).1.map
        EventListener.fid := by
    rw [hkept, List.map_append]
    intro hmem
    rcases List.mem_append.mp hmem with hmem1 | hmem2
    · exact hf1 (((rdl_kept_sublist event data l1).map
        EventListener.fid).subset hmem1)
    · exact hf2 (((rdl_kept_sublist event data l2).map
        EventListener.fid).subset hmem2)
  refine ⟨by rw [hsplit, hcons], hkf, ?_,
    rdl_completed_nodup event data _ hnodup0⟩
  intro hmem
  rw [List.mem_map] at hmem
  obtain ⟨p, hpmem, hpeq⟩ := hmem
  exact hkf (hpeq ▸ rdl_completed_mem_fids event2 data2 _ p hpmem)

/-- Waiter used by the C1 witness: an always-true predicate and no result
transform, so the future receives the raw payload. -/
def sampleWaiter : EventListener Nat Unit :=
  { event := "TRADE", predicate := fun _ => Except.ok true, result := none,
    cancelled := false, fid := 7 }

/-- C1 witness: a single registered waiter for event `TRADE` with an
always-true predicate, dispatched with payload 3 and then again with
payload 4. -/
theorem C1_waiter_fires_once_witness :
    (sampleWaiter.event = "TRADE" ∧ sampleWaiter.cancelled = false ∧
      (∀ d : Nat, sampleWaiter.predicate d = Except.ok true) ∧
      ((([] : List (EventListener Nat Unit)) ++ sampleWaiter :: []).map
          EventListener.fid).Nodup) ∧
    (remove_dispatched_listeners "TRADE" 3 ([] ++ sampleWaiter :: []) =
      ((remove_dispatched_listeners "TRADE" 3
          ([] : List (EventListener Nat Unit))).1 ++
        (remove_dispatched_listeners "TRADE" 3
          ([] : List (EventListener Nat Unit))).1,
       (remove_dispatched_listeners "TRADE" 3
          ([] : List (EventListener Nat Unit))).2 ++
        (sampleWaiter.fid,
          Outcome.done (applyResult sampleWaiter.result 3)) ::
          (remove_dispatched_listeners "TRADE" 3
            ([] : List (EventListener Nat Unit))).2) ∧
    sampleWaiter.fid ∉
      (remove_dispatched_listeners "TRADE" 3
        ([] ++ sampleWaiter :: [])).1.map EventListener.fid ∧
    sampleWaiter.fid ∉
      ((remove_dispatched_listeners "TRADE" 4
        (remove_dispatched_listeners "TRADE" 3
          ([] ++ sampleWaiter :: [])).1).2.map Prod.fst) ∧
    ((remove_dispatched_listeners "TRADE" 3
        ([] ++ sampleWaiter :: [])).2.map Prod.fst).Nodup) :=
  ⟨⟨rfl, rfl, fun _ => rfl, by simp⟩,
    C1_waiter_fires_once "TRADE" "TRADE" 3 4 [] [] sampleWaiter rfl rfl
      (fun _ => rfl) (by simp)⟩

/-- C7: a waiter whose predicate raises during dispatch has its future
completed with exactly that error and is removed from the registry, while
every other waiter is dispatched exactly as it would be without it — the
pass continues over the remaining listeners and returns normally rather
than propagating the exception. -/
theorem C7_predicate_error_completes_waiter (event : String) (data : α)
    (l1 l2 : List (EventListener α ε)) (e : EventListener α ε) (exc : ε)
    (hev : e.event = event) (hnc : e.cancelled = false)
    (hp : e.predicate data = Except.error exc) :
    remove_dispatched_listeners event data (l1 ++ e :: l2) =
      ((remove_dispatched_listeners event data l1).1 ++
        (remove_dispatched_listeners event data l2).1,
       (remove_dispatched_listeners event data l1).2 ++
        (e.fid, Outcome.failed exc) ::
          (remove_dispatched_listeners event data l2).2) := by
  have hcons : remove_dispatched_listeners event data (e :: l2) =
      ((remove_dispatched_listeners event data l2).1,
       (e.fid, Outcome.failed exc) ::
        (remove_dispatched_listeners event data l2).2) := by
    simp [remove_dispatched_listeners, hev, hnc, hp]
  rw [rdl_append, hcons]

/-- Waiter used by the C7 witness: its predicate always raises error 42. -/
def sampleRaisingWaiter : EventListener Nat Nat :=
  { event := "TRADE", predicate := fun _ => Except.error 42, result := none,
    cancelled := false, fid := 9 }

/-- Companion waiter for the C7 witness: a pending waiter for the same
event whose predicate returns false, which must stay registered. -/
def sampleOtherWaiter : EventListener Nat Nat :=
  { event := "TRADE", predicate := fun _ => Except.ok false, result := none,
    cancelled := false, fid := 10 }

/-- C7 witness: a raising waiter between two copies of an indifferent
waiter; the dispatch completes it with the error and treats the others as
if it were absent. -/
theorem C7_predicate_error_completes_waiter_witness :
    (sampleRaisingWaiter.event = "TRADE" ∧
      sampleRaisingWaiter.cancelled = false ∧
      sampleRaisingWaiter.predicate 3 = Except.error 42) ∧
    remove_dispatched_listeners "TRADE" 3
        ([sampleOtherWaiter] ++ sampleRaisingWaiter :: [sampleOtherWaiter]) =
      ((remove_dispatched_listeners "TRADE" 3 [sampleOtherWaiter]).1 ++
        (remove_dispatched_listeners "TRADE" 3 [sampleOtherWaiter]).1,
       (remove_dispatched_listeners "TRADE" 3 [sampleOtherWaiter]).2 ++
        (sampleRaisingWaiter.fid, Outcome.failed 42) ::
          (remove_dispatched_listeners "TRADE" 3 [sampleOtherWaiter]).2) :=
  ⟨⟨rfl, rfl, rfl⟩,
    C7_predicate_error_completes_waiter "TRADE" 3 [sampleOtherWaiter]
      [sampleOtherWaiter] sampleRaisingWaiter 42 rfl rfl rfl⟩

/-! ## Receive-path error classification -/

/-- The enum lookup only ever raises `ValueError`. -/
theorem eventTypeName_error (topic : String) (e : GatewayError)
    (h : Binance.eventTypeName topic = .error e) : e = .valueError := by
  unfold Binance.eventTypeName at h
  split_ifs at h
  simp_all

/-- Errors escaping the stream-routing tail are decode-class errors, never
the receive timeout or the websocket-closure control exception. -/
theorem routeStream_error_class (parsers : String → Bool)
    (listeners : List (EventListener JValue GatewayError)) (stream : String)
    (dataOpt : Option JValue) (e : GatewayError)
    (h : Binance.routeStream parsers listeners stream dataOpt = .error e) :
    e ≠ .timeoutErr ∧ e ≠ .websocketClosure := by
  unfold Binance.routeStream at h
  rcases hsp : pySplit '@' stream with _ | ⟨a, _ | ⟨b, _ | ⟨c, rest⟩⟩⟩ <;>
      rw [hsp] at h <;> simp only [Except.error.injEq] at h
  case nil => subst h; exact ⟨by simp, by simp⟩
  case cons.nil => subst h; exact ⟨by simp, by simp⟩
  case cons.cons.cons => subst h; exact ⟨by simp, by simp⟩
  case cons.cons.nil =>
    rcases dataOpt with _ | data <;> simp only [Except.error.injEq] at h
    · subst h; exact ⟨by simp, by simp⟩
    · rcases hev : Binance.eventTypeName
          (if strContains b "kline" = true then b.dropRight 3 else b) with
        ⟨e1⟩ | ⟨ev⟩ <;> rw [hev] at h <;> simp only [Except.error.injEq] at h
      · subst h
        rw [eventTypeName_error _ _ hev]
        exact ⟨by simp, by simp⟩
      · exact absurd h (by simp)

/-- Errors escaping the binance envelope handling are decode-class errors,
never the receive timeout or the websocket-closure control exception. -/
theorem handleEnvelope_error_class (parsers : String → Bool)
    (listeners : List (EventListener JValue GatewayError))
    (fields : List (String × JValue)) (e : GatewayError)
    (h : Binance.handleEnvelope parsers listeners fields = .error e) :
    e ≠ .timeoutErr ∧ e ≠ .websocketClosure := by
  unfold Binance.handleEnvelope at h
  split at h
  · exact absurd h (by simp)
  · rcases hlk : lookupField fields "stream" with _ | sv <;> rw [hlk] at h
    · simp only [Except.error.injEq] at h
      subst h
      exact ⟨by simp, by simp⟩
    · cases sv with
      | str s => exact routeStream_error_class _ _ _ _ _ h
      | null =>
        simp only [Except.error.injEq] at h
        subst h
        exact ⟨by simp, by simp⟩
      | bool b =>
        simp only [Except.error.injEq] at h
        subst h
        exact ⟨by simp, by simp⟩
      | num n =>
        simp only [Except.error.injEq] at h
        subst h
        exact ⟨by simp, by simp⟩
      | arr xs =>
        simp only [Except.error.injEq] at h
        subst h
        exact ⟨by simp, by simp⟩
      | obj fs =>
        simp only [Except.error.injEq] at h
        subst h
        exact ⟨by simp, by simp⟩

/-- Errors escaping the binance `received_message` are decode-class errors
(JSON decode failure, key/type/value errors), never the receive timeout or
the websocket-closure control exception. -/
theorem binance_received_message_error_class (parsers : String → Bool)
    (listeners : List (EventListener JValue GatewayError)) (raw : RawMsg)
    (e : GatewayError)
    (h : Binance.received_message parsers listeners raw = .error e) :
    e ≠ .timeoutErr ∧ e ≠ .websocketClosure := by
  unfold Binance.received_message at h
  cases raw with
  | malformed =>
    simp only [loads, Except.error.injEq] at h
    subst h
    exact ⟨by simp, by simp⟩
  | wellFormed v =>
    cases v with
    | obj fields =>
      replace h : Binance.handleEnvelope parsers listeners fields =
          Except.error e := h
      exact handleEnvelope_error_class _ _ _ _ h
    | null =>
      replace h : (Except.error .typeError :
          Except GatewayError
            (List (String × JValue) ×
              List (EventListener JValue GatewayError) ×
              List (Nat × Outcome JValue GatewayError))) = Except.error e := h
      simp only [Except.error.injEq] at h
      subst h
      exact ⟨by simp, by simp⟩
    | bool b =>
      replace h : (Except.error .typeError :
          Except GatewayError
            (List (String × JValue) ×
              List (EventListener JValue GatewayError) ×
              List (Nat × Outcome JValue GatewayError))) = Except.error e := h
      simp only [Except.error.injEq] at h
      subst h
      exact ⟨by simp, by simp⟩
    | num n =>
      replace h : (Except.error .typeError :
          Except GatewayError
            (List (String × JValue) ×
              List (EventListener JValue GatewayError) ×
              List (Nat × Outcome JValue GatewayError))) = Except.error e := h
      simp only [Except.error.injEq] at h
      subst h
      exact ⟨by simp, by simp⟩
    | str s =>
      replace h : (Except.error .typeError :
          Except GatewayError
            (List (String × JValue) ×
              List (EventListener JValue GatewayError) ×
              List (Nat × Outcome JValue GatewayError))) = Except.error e := h
      simp only [Except.error.injEq] at h
      subst h
      exact ⟨by simp, by simp⟩
    | arr xs =>
      replace h : (Except.error .typeError :
          Except GatewayError
            (List (String × JValue) ×
              List (EventListener JValue GatewayError) ×
              List (Nat × Outcome JValue GatewayError))) = Except.error e := h
      simp only [Except.error.injEq] at h
      subst h
      exact ⟨by simp, by simp⟩

/-- A well-formed single-stream ticker frame is routed to the
`TICKER_UPDATE` handler and then to the waiter dispatch. -/
theorem binance_ticker_processed (parsers : String → Bool)
    (listeners : List (EventListener JValue GatewayError)) (sym : String)
    (data : JValue) (hp : parsers "TICKER_UPDATE" = true)
    (hsym : '@' ∉ sym.toList) :
    Binance.received_message parsers listeners
      (.wellFormed (.obj [("stream", .str (sym ++ "@ticker")),
        ("data", data)])) =
    Except.ok ([("TICKER_UPDATE", data)],
      (remove_dispatched_listeners "TICKER_UPDATE" data listeners).1,
      (remove_dispatched_listeners "TICKER_UPDATE" data listeners).2) := by
  have hsp : pySplit '@' (sym ++ "@ticker") = [sym, "ticker"] :=
    pySplit_symbol_ticker sym hsym
  have hkl : strContains "ticker" "kline" = false := by decide
  have hev : Binance.eventTypeName "ticker" = .ok "TICKER_UPDATE" := rfl
  simp [Binance.received_message, Binance.handleEnvelope, Binance.routeStream,
    loads, lookupField, jTruthy, hsp, hkl, hev, hp]

/-- Unfolding of `poll_event` on a data frame: the message is processed and
the exception handler inspects any resulting error. -/
theorem poll_event_text (parsers : String → Bool)
    (listeners : List (EventListener JValue GatewayError))
    (cc scc : Option Int) (raw : RawMsg) :
    poll_event parsers listeners cc scc (.text raw) =
      match Binance.received_message parsers listeners raw with
      | .ok (invs, kept, outs) => .processed invs kept outs
      | .error .timeoutErr => .reconnect
      | .error .websocketClosure =>
        if BaseWebSocket.can_handle_close
            (BaseWebSocket.effectiveCloseCode cc scc) then .reconnect
        else .connectionClosed (BaseWebSocket.effectiveCloseCode cc scc)
      | .error e => .uncaught e := rfl

/-! ## Claim theorems: inbound decode failures (C5) -/

/-- C5 (counterexample to the claim as stated): a malformed frame received
while the session is open is not logged and skipped: the decode error
propagates out of `poll_event` (whose handler catches only the receive
timeout and the websocket closure), and it is not among the exception
classes the reconnect loop in `_BaseClient.connect` catches either, so the
exception escapes the receive loop. -/
theorem C5_decode_error_counterexample :
    poll_event (fun ev => ev == "TICKER_UPDATE") [] none none
        (.text .malformed) = .uncaught .decodeError ∧
    connectLoopCatches .decodeError = false :=
  ⟨rfl, rfl⟩

/-- C5 (amended): a frame whose decode fails does not close the connection,
but it is not skipped either: every error of `received_message` is
re-raised out of `poll_event` uncaught, and no exception class of the
reconnect loop covers it, so it escapes the receive loop; a well-formed
ticker frame that is polled does invoke the registered ticker handler and
then the waiter dispatch. -/
theorem C5_decode_error_amended :
    (∀ (parsers : String → Bool)
        (listeners : List (EventListener JValue GatewayError))
        (cc scc : Option Int) (raw : RawMsg) (e : GatewayError),
        Binance.received_message parsers listeners raw = .error e →
        poll_event parsers listeners cc scc (.text raw) = .uncaught e ∧
          connectLoopCatches e = false) ∧
    (∀ (parsers : String → Bool)
        (listeners : List (EventListener JValue GatewayError))
        (cc scc : Option Int) (sym : String) (data : JValue),
        parsers "TICKER_UPDATE" = true → '@' ∉ sym.toList →
        poll_event parsers listeners cc scc
          (.text (.wellFormed (.obj [("stream", .str (sym ++ "@ticker")),
            ("data", data)]))) =
          .processed [("TICKER_UPDATE", data)]
            (remove_dispatched_listeners "TICKER_UPDATE" data listeners).1
            (remove_dispatched_listeners "TICKER_UPDATE" data listeners).2) := by
  constructor
  · intro parsers listeners cc scc raw e h
    obtain ⟨ht, hw⟩ :=
      binance_received_message_error_class parsers listeners raw e h
    constructor
    · rw [poll_event_text, h]
      cases e
      case timeoutErr => exact absurd rfl ht
      case websocketClosure => exact absurd rfl hw
      all_goals rfl
    · cases e
      case timeoutErr => exact absurd rfl ht
      all_goals rfl
  · intro parsers listeners cc scc sym data hp hsym
    rw [poll_event_text,
      binance_ticker_processed parsers listeners sym data hp hsym]

/-- C5 witness: a malformed frame escapes as an uncaught decode error, and
a well-formed `btcusdt@ticker` frame fires the `TICKER_UPDATE` handler. -/
theorem C5_decode_error_amended_witness :
    (Binance.received_message (fun ev => ev == "TICKER_UPDATE")
        ([] : List (EventListener JValue GatewayError)) .malformed =
      .error .decodeError) ∧
    (poll_event (fun ev => ev == "TICKER_UPDATE") [] none none
        (.text .malformed) = .uncaught .decodeError ∧
      connectLoopCatches .decodeError = false) ∧
    ((fun ev => ev == "TICKER_UPDATE") "TICKER_UPDATE" = true) ∧
    ('@' ∉ "btcusdt".toList) ∧
    poll_event (fun ev => ev == "TICKER_UPDATE") [] none none
      (.text (.wellFormed (.obj [("stream", .str ("btcusdt" ++ "@ticker")),
        ("data", JValue.num 5)]))) =
      .processed [("TICKER_UPDATE", JValue.num 5)]
        (remove_dispatched_listeners "TICKER_UPDATE" (JValue.num 5) []).1
        (remove_dispatched_listeners "TICKER_UPDATE" (JValue.num 5) []).2 :=
  ⟨rfl,
    C5_decode_error_amended.1 (fun ev => ev == "TICKER_UPDATE") [] none none
      .malformed .decodeError rfl,
    rfl,
    by decide,
    C5_decode_error_amended.2 (fun ev => ev == "TICKER_UPDATE") [] none none
      "btcusdt" (JValue.num 5) rfl (by decide)⟩

/-! ## Claim theorems: send gating (C8) and bitmex drain (C10) -/

/-- C8 (counterexample to the claim as stated): the binance gateway's
`subscribe` issues its command with `self.socket.send_json(payload)`
directly, writing to the transport without any rate-limiter acquire — so
not every outbound write is preceded by an acquire. -/
theorem C8_unguarded_subscribe_counterexample :
    writesGuarded binance_subscribe_ops = false ∧
    SendOp.write ∈ binance_subscribe_ops := by
  exact ⟨rfl, by simp [binance_subscribe_ops]⟩

/-- C8 (amended): sends routed through `_BaseWebSocket.send` acquire the
rate limiter inside its critical section before touching the socket, and
the spec-modelled heartbeat path inherits this; but the subscribe and
unsubscribe commands of both the binance and the bitmex gateway call
`socket.send_json` directly and reach the transport without passing
through the rate limiter. -/
theorem C8_send_gating_amended :
    writesGuarded send_ops = true ∧
    writesGuarded send_heartbeat_ops = true ∧
    send_ops = [SendOp.acquire, SendOp.dispatchCb, SendOp.write] ∧
    writesGuarded binance_subscribe_ops = false ∧
    writesGuarded binance_unsubscribe_ops = false ∧
    writesGuarded bitmex_subscribe_ops = false ∧
    writesGuarded bitmex_unsubscribe_ops = false := by
  exact ⟨rfl, rfl, rfl, rfl, rfl, rfl, rfl⟩

/-- C10: in the bitmex gateway, when a handler is registered for the
decoded event, `received_message` consumes the data array destructively
from the end — the handler is invoked once per entry, in reverse order,
until the array is empty — and the waiter dispatch performed afterwards
receives the now-empty array as its payload rather than the original
data. -/
theorem C10_bitmex_drains_reversed (parsers : String → Bool)
    (listeners : List (EventListener JValue GatewayError))
    (table action : String) (xs : List JValue)
    (hp : parsers (pyUpper table ++ "_" ++ pyUpper action) = true) :
    Bitmex.received_message parsers listeners
      (.wellFormed (.arr [.num 0, .null, .null,
        .obj [("table", .str table), ("action", .str action),
              ("data", .arr xs)]])) =
    Except.ok
      (xs.reverse.map (fun x => (pyUpper table ++ "_" ++ pyUpper action, x)),
       (remove_dispatched_listeners (pyUpper table ++ "_" ++ pyUpper action)
          (JValue.arr []) listeners).1,
       (remove_dispatched_listeners (pyUpper table ++ "_" ++ pyUpper action)
          (JValue.arr []) listeners).2) := by
  simp [Bitmex.received_message, Bitmex.handleTableEvent, Bitmex.subscript,
    Bitmex.containsSuccess, loads, lookupField, hp, drainPop_eq_reverse]

/-- C10 witness: table `trade`, action `insert`, two data entries; the
`TRADE_INSERT` handler is invoked on entry 2 then entry 1, and the waiter
dispatch runs on the emptied array. -/
theorem C10_bitmex_drains_reversed_witness :
    ((fun e => e == "TRADE_INSERT")
        (pyUpper "trade" ++ "_" ++ pyUpper "insert") = true) ∧
    Bitmex.received_message (fun e => e == "TRADE_INSERT") []
      (.wellFormed (.arr [.num 0, .null, .null,
        .obj [("table", .str "trade"), ("action", .str "insert"),
              ("data", .arr [.num 1, .num 2])]])) =
    Except.ok
      ([JValue.num 1, JValue.num 2].reverse.map
          (fun x => (pyUpper "trade" ++ "_" ++ pyUpper "insert", x)),
       (remove_dispatched_listeners (pyUpper "trade" ++ "_" ++ pyUpper "insert")
          (JValue.arr []) []).1,
       (remove_dispatched_listeners (pyUpper "trade" ++ "_" ++ pyUpper "insert")
          (JValue.arr []) []).2) :=
  ⟨by decide,
    C10_bitmex_drains_reversed (fun e => e == "TRADE_INSERT") [] "trade"
      "insert" [.num 1, .num 2] (by decide)⟩

/-- C4 witness: a monitor with last receive at 0 and timeout 10, ticking at
time 11. -/
theorem C4_stale_connection_closes_resumable_witness :
    ((0:ℚ) + 10 < 11) ∧
    (keep_alive_tick 0 10 11 = TickOutcome.closedAndStopped 4000 ∧
      wsCloseSession { close_code := none, keep_alive_running := true } 4000 =
        { close_code := some 4000, keep_alive_running := false } ∧
      BaseWebSocket.can_handle_close
        (BaseWebSocket.effectiveCloseCode
          (wsCloseSession { close_code := none, keep_alive_running := true }
            4000).close_code (some 1006)) = true) :=
  ⟨by norm_num,
    C4_stale_connection_closes_resumable
      { close_code := none, keep_alive_running := true } 0 10 11 (some 1006)
      (by norm_num)⟩

end Ccctrl
